import Mathlib

/-!
# Verification of the world-news incremental ingestion pipeline

Shallow embedding of the ingestion / watermarking / timeline code of
`backend/main.py` (FastAPI news aggregation service), together with
theorems settling the specification claims about it.

Conventions of the embedding:
* Python lists become `List`; dictionaries with string keys become
  association lists; SQLite rows become structures.
* Publish timestamps are modelled as `Nat` (the code only ever compares
  and copies them).
* The external collaborators (yt-dlp extraction, HTTP, translation, the
  OpenAI call) are modelled as oracle inputs: a fetch task is an
  `Except Unit (List Video)` (result or exception), the AI reply is an
  `AIResult` value.  `translate_to_arabic` is an external service that
  returns the text unchanged on any failure; titles are carried through
  unchanged.
-/

namespace WorldNews

/-! ## Watermark merge (backend/main.py 1140-1183, 747-787, 1270-1303)

The code merges the newly discovered ids in front of the stored JSON
list, removes duplicates keeping the first occurrence (a `seen` set and
an output list), and truncates to the first 5 entries. -/

/-- The duplicate-removal loop: `seen` starts as the given list, an
element is kept iff it is not yet in `seen`, and kept elements are added
to `seen` (mirrors the `seen = set(); unique_ids = []` loop). -/
def dedupAux {α : Type} [DecidableEq α] : List α → List α → List α
  | [], _ => []
  | x :: xs, seen => if x ∈ seen then dedupAux xs seen else x :: dedupAux xs (x :: seen)

/-- Remove duplicates preserving the first occurrence of each element. -/
def dedupKeepFirst {α : Type} [DecidableEq α] (l : List α) : List α :=
  dedupAux l []

/-- `record_new_ids`: the watermark update of the ingestion loops
(lines 1152-1162): put the new ids in front of the stored ids,
de-duplicate preserving first occurrence, keep the first 5 (K = 5). -/
def record_new_ids (newIds existingIds : List String) : List String :=
  (dedupKeepFirst (newIds ++ existingIds)).take 5

/-- `get_recent_ids`: reading a watermark returns the stored id list
verbatim (the `json.loads` of the stored column). -/
def get_recent_ids (stored : List String) : List String :=
  stored

/-- The `seen` accumulator after the dedup loop has processed `l`. -/
def seenAfter {α : Type} [DecidableEq α] : List α → List α → List α
  | [], s => s
  | x :: xs, s => if x ∈ s then seenAfter xs s else seenAfter xs (x :: s)

theorem mem_seenAfter {α : Type} [DecidableEq α] :
    ∀ (l s : List α) (a : α), a ∈ seenAfter l s ↔ a ∈ l ∨ a ∈ s := by
  intro l
  induction l with
  | nil => intro s a; simp [seenAfter]
  | cons x xs ih =>
    intro s a
    by_cases hx : x ∈ s
    · simp only [seenAfter, if_pos hx, ih]
      constructor
      · rintro (h | h)
        · exact Or.inl (List.mem_cons_of_mem _ h)
        · exact Or.inr h
      · rintro (h | h)
        · rcases List.mem_cons.mp h with rfl | h
          · exact Or.inr hx
          · exact Or.inl h
        · exact Or.inr h
    · simp only [seenAfter, if_neg hx, ih, List.mem_cons]
      tauto

theorem dedupAux_append {α : Type} [DecidableEq α] :
    ∀ (l₁ l₂ s : List α),
      dedupAux (l₁ ++ l₂) s = dedupAux l₁ s ++ dedupAux l₂ (seenAfter l₁ s) := by
  intro l₁
  induction l₁ with
  | nil => intro l₂ s; simp [dedupAux, seenAfter]
  | cons x xs ih =>
    intro l₂ s
    by_cases hx : x ∈ s
    · simp [dedupAux, seenAfter, if_pos hx, ih]
    · simp [dedupAux, seenAfter, if_neg hx, ih]

theorem dedupAux_congr {α : Type} [DecidableEq α] :
    ∀ (l s₁ s₂ : List α), (∀ a, a ∈ s₁ ↔ a ∈ s₂) → dedupAux l s₁ = dedupAux l s₂ := by
  intro l
  induction l with
  | nil => intro s₁ s₂ _; rfl
  | cons x xs ih =>
    intro s₁ s₂ h
    by_cases hx : x ∈ s₁
    · rw [dedupAux, dedupAux, if_pos hx, if_pos ((h x).mp hx)]
      exact ih s₁ s₂ h
    · rw [dedupAux, dedupAux, if_neg hx, if_neg (fun hc => hx ((h x).mpr hc))]
      refine congrArg (x :: ·) (ih _ _ ?_)
      intro a
      simp only [List.mem_cons]
      exact or_congr Iff.rfl (h a)

theorem dedupAux_of_nodup {α : Type} [DecidableEq α] :
    ∀ (l s : List α), l.Nodup → dedupAux l s = l.filter (fun a => decide (a ∉ s)) := by
  intro l
  induction l with
  | nil => intro s _; rfl
  | cons x xs ih =>
    intro s hnd
    rcases List.nodup_cons.mp hnd with ⟨hx, hxs⟩
    by_cases hs : x ∈ s
    · rw [dedupAux, if_pos hs, ih s hxs, List.filter_cons]
      simp [hs]
    · have hpx : decide (x ∉ s) = true := by simp [hs]
      rw [dedupAux, if_neg hs, List.filter_cons, hpx, if_pos rfl]
      refine congrArg (x :: ·) ?_
      rw [ih (x :: s) hxs]
      refine List.filter_congr ?_
      intro a ha
      have hax : a ≠ x := fun h => hx (h ▸ ha)
      simp [List.mem_cons, hax, hs]

/-- C1. Watermark merge law: after recording a batch of new ids over a
(duplicate-free) prior watermark list, reading the watermark yields the
new ids first — de-duplicated preserving first occurrence — followed by
the previously known ids not among the new ones, truncated to K = 5. -/
theorem c1_watermark_merge (newIds prior : List String) (h : prior.Nodup) :
    get_recent_ids (record_new_ids newIds prior) =
      (dedupKeepFirst newIds ++ prior.filter (fun a => decide (a ∉ newIds))).take 5 := by
  unfold get_recent_ids record_new_ids dedupKeepFirst
  rw [dedupAux_append]
  congr 1
  rw [dedupAux_of_nodup _ _ h]
  refine congrArg (dedupAux newIds [] ++ ·) ?_
  refine List.filter_congr ?_
  intro a _
  have : a ∈ seenAfter newIds ([] : List String) ↔ a ∈ newIds := by
    rw [mem_seenAfter]; simp
  simp [this]

/-- Witness for C1 at the spec's "Reuters" scenario: prior watermark
`[id3, id2, id1]`, new ids `[id5, id4, id3]` (newest first). -/
theorem c1_watermark_merge_witness :
    (["id3", "id2", "id1"] : List String).Nodup ∧
      get_recent_ids (record_new_ids ["id5", "id4", "id3"] ["id3", "id2", "id1"]) =
        ["id5", "id4", "id3", "id2", "id1"] := by
  refine ⟨by decide, ?_⟩
  rw [c1_watermark_merge _ _ (by decide)]
  decide

/-! ## Items and the YouTube fetch adapter (backend/main.py 837-980)

`fetch_youtube_channel_videos` walks the channel's entry list (at most 50
entries, `playlistend: 50`): entries without an id are skipped; as soon
as an entry's id is in the supplied watermark list the scan stops;
entries titled `[Private video]` / `[Deleted video]` (or with an empty
title) are skipped; on first run (no watermark) the scan stops after
collecting 5 videos. -/

/-- A candidate item as built by the adapters (the `dict` pushed into
`videos` / `articles`). -/
structure Video where
  video_id : String
  title : String
  link : String
  source : String
  published : Nat
deriving DecidableEq, Repr

/-- One raw entry of `info['entries']` as the extractor returns it:
an optional id, a title (yt-dlp substitutes `'No Title'` when absent)
and a publish time. -/
structure Entry where
  eid : Option String
  title : String
  published : Nat
deriving DecidableEq, Repr

/-- Title filter of the adapter: `not title or title == '[Private video]'
or title == '[Deleted video]'` skips the entry. -/
def validTitle (t : String) : Bool :=
  !(t = "" || t = "[Private video]" || t = "[Deleted video]")

/-- The candidate built for a kept entry (title passes through the
translation collaborator unchanged in this model). -/
def mkVideo (cn : String) (vid : String) (e : Entry) : Video :=
  { video_id := vid
    title := e.title
    link := "https://www.youtube.com/watch?v=" ++ vid
    source := cn
    published := e.published }

/-- The `for entry in entries_list` loop of the adapter, with the
accumulated `videos` list made explicit. -/
def fetchLoop (cn : String) (wm : List String) : List Video → List Entry → List Video
  | acc, [] => acc
  | acc, e :: rest =>
    match e.eid with
    | none => fetchLoop cn wm acc rest
    | some vid =>
      if ¬ wm.isEmpty ∧ vid ∈ wm then acc
      else if ¬ validTitle e.title then fetchLoop cn wm acc rest
      else
        let acc' := acc ++ [mkVideo cn vid e]
        if wm.isEmpty ∧ 5 ≤ acc'.length then acc'
        else fetchLoop cn wm acc' rest

/-- `fetch_youtube_channel_videos(channel_url, channel_name,
last_video_ids)`: an empty `wm` models both `last_video_ids = None` and
an empty list (both give an empty `last_video_ids_set`). -/
def fetch_youtube_channel_videos (cn : String) (wm : List String) (entries : List Entry) :
    List Video :=
  fetchLoop cn wm [] entries

/-- The candidate an entry contributes when it is kept: `none` for
entries without id or with an invalid title. -/
def entryVideo (cn : String) (e : Entry) : Option Video :=
  match e.eid with
  | none => none
  | some vid => if validTitle e.title then some (mkVideo cn vid e) else none

/-- An entry does not trigger the stop-at-known-id break: either it has
no id or its id is not in the watermark list. -/
def notKnown (wm : List String) (e : Entry) : Bool :=
  match e.eid with
  | none => true
  | some vid => decide (vid ∉ wm)

theorem fetchLoop_nonempty_wm (cn : String) (wm : List String) (hwm : wm ≠ []) :
    ∀ (entries : List Entry) (acc : List Video),
      fetchLoop cn wm acc entries =
        acc ++ (entries.takeWhile (notKnown wm)).filterMap (entryVideo cn) := by
  have hwe : wm.isEmpty = false := by
    cases wm with
    | nil => exact absurd rfl hwm
    | cons a l => rfl
  intro entries
  induction entries with
  | nil => intro acc; simp [fetchLoop]
  | cons e rest ih =>
    intro acc
    rw [fetchLoop]
    cases he : e.eid with
    | none =>
      have hnk : notKnown wm e = true := by rw [notKnown, he]
      rw [ih acc]
      simp [List.takeWhile_cons, hnk, List.filterMap_cons, entryVideo, he]
    | some vid =>
      dsimp only
      by_cases hk : vid ∈ wm
      · have hc : ¬ wm.isEmpty ∧ vid ∈ wm := by
          refine ⟨?_, hk⟩
          simp [hwe]
        rw [if_pos hc]
        have hnk : notKnown wm e = false := by
          rw [notKnown, he]; simp [hk]
        simp [List.takeWhile_cons, hnk]
      · have hc : ¬ (¬ wm.isEmpty ∧ vid ∈ wm) := fun h => hk h.2
        rw [if_neg hc]
        have hnk : notKnown wm e = true := by
          rw [notKnown, he]; simp [hk]
        by_cases hv : validTitle e.title
        · rw [if_neg (by simp [hv])]
          have hcap : ¬ (wm.isEmpty ∧ 5 ≤ (acc ++ [mkVideo cn vid e]).length) := by
            intro h
            rw [hwe] at h
            exact Bool.false_ne_true h.1
          simp only [if_neg hcap]
          rw [ih]
          simp [List.takeWhile_cons, hnk, List.filterMap_cons, entryVideo, he, hv]
        · rw [if_pos (by simpa using hv)]
          rw [ih acc]
          have hev : entryVideo cn e = none := by
            rw [entryVideo, he]
            simp [hv]
          simp [List.takeWhile_cons, hnk, List.filterMap_cons, hev]

theorem fetchLoop_empty_wm (cn : String) :
    ∀ (entries : List Entry) (acc : List Video), acc.length < 5 →
      fetchLoop cn [] acc entries =
        (acc ++ entries.filterMap (entryVideo cn)).take 5 := by
  intro entries
  induction entries with
  | nil =>
    intro acc hlen
    rw [fetchLoop]
    simp only [List.filterMap_nil, List.append_nil]
    exact (List.take_of_length_le (Nat.le_of_lt hlen)).symm
  | cons e rest ih =>
    intro acc hlen
    rw [fetchLoop]
    cases he : e.eid with
    | none =>
      rw [ih acc hlen]
      simp [List.filterMap_cons, entryVideo, he]
    | some vid =>
      dsimp only
      rw [if_neg (by simp)]
      by_cases hv : validTitle e.title
      · rw [if_neg (by simp [hv])]
        have hev : entryVideo cn e = some (mkVideo cn vid e) := by
          simp [entryVideo, he, hv]
        by_cases hcap : 5 ≤ (acc ++ [mkVideo cn vid e]).length
        · rw [if_pos ⟨rfl, hcap⟩]
          have hl1 : (acc ++ [mkVideo cn vid e]).length = acc.length + 1 := by simp
          have hlen5 : (acc ++ [mkVideo cn vid e]).length = 5 := by omega
          rw [List.filterMap_cons, hev]
          have : acc ++ mkVideo cn vid e :: rest.filterMap (entryVideo cn) =
              (acc ++ [mkVideo cn vid e]) ++ rest.filterMap (entryVideo cn) := by
            simp
          rw [this, ← hlen5, List.take_left]
        · rw [if_neg (fun h => hcap h.2)]
          have hlt : (acc ++ [mkVideo cn vid e]).length < 5 := by omega
          rw [ih _ hlt]
          rw [List.filterMap_cons, hev]
          simp
      · rw [if_pos (by simpa using hv)]
        rw [ih acc hlen]
        have hev : entryVideo cn e = none := by
          rw [entryVideo, he]
          simp [hv]
        simp [List.filterMap_cons, hev]

/-- C3 (amended). The adapter returns the valid entries (those with an
id and a title that is non-empty and not `[Private video]` /
`[Deleted video]`) of the prefix of the entry sequence preceding the
first entry whose id appears in the (non-empty) watermark list; with no
watermark it returns the first 5 valid entries. -/
theorem c3_amended (cn : String) (wm : List String) (entries : List Entry) :
    fetch_youtube_channel_videos cn wm entries =
      if wm.isEmpty then (entries.filterMap (entryVideo cn)).take 5
      else (entries.takeWhile (notKnown wm)).filterMap (entryVideo cn) := by
  cases wm with
  | nil =>
    have h5 := fetchLoop_empty_wm cn entries [] (by decide)
    simp only [List.nil_append] at h5
    simp [fetch_youtube_channel_videos, h5]
  | cons a l =>
    have h := fetchLoop_nonempty_wm cn (a :: l) (by simp) entries []
    simp only [List.nil_append] at h
    simp [fetch_youtube_channel_videos, h]

/-- C3 (counterexample). With watermark `["a"]` and entry sequence
`[⟨some "p", "[Private video]"⟩, ⟨some "a", "t"⟩]`, the prefix strictly
preceding the first known id has one entry, yet the adapter returns no
item at all: it does not return "exactly the prefix" of the entry
sequence, because private/deleted/id-less entries inside the prefix are
dropped. -/
theorem c3_counterexample :
    fetch_youtube_channel_videos "c" ["a"]
        [⟨some "p", "[Private video]", 1⟩, ⟨some "a", "t", 0⟩] = [] ∧
      (List.takeWhile (notKnown ["a"])
        [Entry.mk (some "p") "[Private video]" 1, Entry.mk (some "a") "t" 0]).length = 1 := by
  constructor
  · rfl
  · rfl

/-! ## One poll cycle of the world-news YouTube loop
(backend/main.py 982-1022 and 1070-1199)

`fetch_all_youtube_channels` gathers all per-channel fetch tasks with
`return_exceptions=True`, skips the results that are exceptions,
concatenates the rest and sorts newest-first by publish date (a stable
sort, as Python's).  `fetch_youtube_feeds` then groups the combined
batch by channel, persists item-by-item with a commit per item (a
failing insert is rolled back alone and the loop continues), updates
each channel's watermark from the fetched groups, and finally
broadcasts each newly persisted item.  The event-timeline call happens
per persisted item only when `first_run` is false. -/

/-- Stable insertion (descending by `key`): the new element goes after
every element with a greater-or-equal key, as Python's stable
`sort(reverse=True)` orders ties. -/
def insertByDesc {α : Type} (key : α → Nat) (x : α) : List α → List α
  | [] => [x]
  | y :: ys => if key y < key x then x :: y :: ys else y :: insertByDesc key x ys

/-- Stable sort, greatest key first. -/
def sortByDesc {α : Type} (key : α → Nat) (l : List α) : List α :=
  l.foldl (fun acc v => insertByDesc key v acc) []

/-- `all_videos.sort(key=lambda x: x['published'], reverse=True)`. -/
def sortNewestFirst (videos : List Video) : List Video :=
  sortByDesc (·.published) videos

/-- Collecting the `asyncio.gather(..., return_exceptions=True)`
results: a result that is an exception is skipped with a logged error,
the others are concatenated in task order. -/
def combineResults (results : List (Except Unit (List Video))) : List Video :=
  results.foldl
    (fun acc r =>
      match r with
      | Except.error _ => acc
      | Except.ok vs => acc ++ vs)
    []

/-- Append a video to its channel's group, creating the group on first
occurrence (Python dict insertion order). -/
def addToGroups (gs : List (String × List Video)) (v : Video) : List (String × List Video) :=
  match gs with
  | [] => [(v.source, [v])]
  | (n, vs) :: rest =>
    if n = v.source then (n, vs ++ [v]) :: rest else (n, vs) :: addToGroups rest v

/-- `videos_by_channel`: group the combined batch by `source`,
preserving order within a group and first-occurrence order of groups. -/
def groupBySource (videos : List Video) : List (String × List Video) :=
  videos.foldl addToGroups []

/-- The persist loop over the combined batch, parameterised by the set of
links whose insert transaction fails (`fails`).  Per item: if a row with
the same link exists the item is skipped; an insert failure rolls back
that item alone and the loop continues; a successful insert commits and
the item joins `new_items_found`.  Returns (links in store, new items). -/
def persistLoopF (fails : String → Bool) (store : List String) :
    List Video → List String × List Video
  | [] => (store, [])
  | v :: vs =>
    if v.link ∈ store then persistLoopF fails store vs
    else if fails v.link then persistLoopF fails store vs
    else
      let r := persistLoopF fails (store ++ [v.link]) vs
      (r.1, v :: r.2)

/-- A per-source watermark row (`channel_last_video` /
`newspaper_last_article`): the JSON id list and the publish timestamp. -/
structure WmRecord where
  ids : List String
  ts : Nat
deriving DecidableEq, Repr

/-- Replace the row of `name`, or append a fresh one. -/
def upsertWm : List (String × WmRecord) → String → WmRecord → List (String × WmRecord)
  | [], n, r => [(n, r)]
  | (m, r0) :: rest, n, r =>
    if m = n then (n, r) :: rest else (m, r0) :: upsertWm rest n r

/-- The per-channel watermark update of `fetch_youtube_feeds`
(lines 1131-1183): existing ids are read from the row (a corrupt row
reads as `[]`), the new ids are the channel's batch reversed, merged by
`record_new_ids`, and the timestamp is taken from the LAST element of
the channel's batch (the code believes the batch is oldest-first). -/
def updateChannelWm (wms : List (String × WmRecord)) (name : String)
    (chVids : List Video) : List (String × WmRecord) :=
  let existing := ((wms.lookup name).map (·.ids)).getD []
  let newIds := chVids.reverse.map (·.video_id)
  let finalIds := record_new_ids newIds existing
  let ts := ((chVids.getLast?).map (·.published)).getD 0
  upsertWm wms name ⟨finalIds, ts⟩

/-- Everything one poll cycle of `fetch_youtube_feeds` produces. -/
structure YtCycleResult where
  store : List String
  newItems : List Video
  broadcasts : List Video
  timelineCalls : List Video
  wms : List (String × WmRecord)
deriving DecidableEq, Repr

/-- One cycle of the world-news loop: combine and sort the fetch
results, persist item-by-item, update the per-channel watermarks from
the fetched (grouped) batch, broadcast every newly persisted item;
`process_event_timeline` runs per new item only when not `firstRun`. -/
def runYtCycle (firstRun : Bool) (fails : String → Bool) (store : List String)
    (wms : List (String × WmRecord)) (fetched : List (Except Unit (List Video))) :
    YtCycleResult :=
  let videos := sortNewestFirst (combineResults fetched)
  let pr := persistLoopF fails store videos
  let groups := groupBySource videos
  let wms' := groups.foldl (fun acc g => updateChannelWm acc g.1 g.2) wms
  { store := pr.1
    newItems := pr.2
    broadcasts := pr.2
    timelineCalls := if firstRun then [] else pr.2
    wms := wms' }

theorem combineResults_foldl (results : List (Except Unit (List Video))) :
    ∀ acc : List Video,
      results.foldl
          (fun acc r =>
            match r with
            | Except.error _ => acc
            | Except.ok vs => acc ++ vs)
          acc =
        acc ++
          (results.map (fun r =>
            match r with
            | Except.ok vs => vs
            | Except.error _ => ([] : List Video))).flatten := by
  induction results with
  | nil => intro acc; simp
  | cons r rs ih =>
    intro acc
    cases r with
    | error e => simpa using ih acc
    | ok vs => simp [ih (acc ++ vs)]

/-- C8. Per-source failure isolation: the combined batch of a poll is
exactly the concatenation of the successful per-source results, in task
order — a source whose task raised contributes the empty list and the
other sources' items are all kept. -/
theorem c8_failure_isolation (results : List (Except Unit (List Video))) :
    combineResults results =
      (results.map (fun r =>
        match r with
        | Except.ok vs => vs
        | Except.error _ => ([] : List Video))).flatten := by
  rw [combineResults, combineResults_foldl results []]
  rfl

/-- C2 (counterexample).  A first-run cycle over a single source that
fetched one video: the item IS written to the store, IS broadcast, and
the watermark is updated — refuting "zero persisted items and zero
broadcasts" in FIRST_RUN. -/
theorem c2_counterexample :
    (runYtCycle true (fun _ => false) [] []
        [Except.ok [⟨"vid0", "t0", "l0", "src0", 10⟩]]).store = ["l0"] ∧
      (runYtCycle true (fun _ => false) [] []
        [Except.ok [⟨"vid0", "t0", "l0", "src0", 10⟩]]).broadcasts =
        [⟨"vid0", "t0", "l0", "src0", 10⟩] ∧
      (runYtCycle true (fun _ => false) [] []
        [Except.ok [⟨"vid0", "t0", "l0", "src0", 10⟩]]).wms =
        [("src0", ⟨["vid0"], 10⟩)] :=
  ⟨rfl, rfl, rfl⟩

/-- C2 (amended).  On a category's very first poll the fetched items are
persisted and broadcast exactly as in steady state (the adapter merely
caps a first-run source at 5 items); the only first-run difference is
that the event-timeline clustering call is skipped. -/
theorem c2_amended (fails : String → Bool) (store : List String)
    (wms : List (String × WmRecord)) (fetched : List (Except Unit (List Video))) :
    (runYtCycle true fails store wms fetched).store =
        (runYtCycle false fails store wms fetched).store ∧
      (runYtCycle true fails store wms fetched).broadcasts =
        (runYtCycle false fails store wms fetched).broadcasts ∧
      (runYtCycle true fails store wms fetched).wms =
        (runYtCycle false fails store wms fetched).wms ∧
      (runYtCycle true fails store wms fetched).timelineCalls = [] :=
  ⟨rfl, rfl, rfl, rfl⟩

/-- C6.  A source "s" whose poll fetched two videos, published at 20
(newer, returned first by the adapter) and 10: the watermark row stores
timestamp 10 — the OLDEST item's publish time — because the per-channel
batch is sorted newest-first while the code takes its last element
believing the list is oldest-first.  The claim (and the code's own
comments) require the newest timestamp, 20. -/
theorem c6_timestamp_oldest :
    ((runYtCycle false (fun _ => false) [] []
        [Except.ok [⟨"v2", "t2", "l2", "s", 20⟩, ⟨"v1", "t1", "l1", "s", 10⟩]]).wms).lookup
        "s" = some ⟨["v1", "v2"], 10⟩ ∧
      (([⟨"v2", "t2", "l2", "s", 20⟩, ⟨"v1", "t1", "l1", "s", 10⟩] : List Video).map
        (·.published)).foldl Nat.max 0 = 20 ∧
      (10 : Nat) ≠ 20 := by
  refine ⟨rfl, rfl, by decide⟩

theorem persistLoopF_mem_replicate (fails : String → Bool) (v : Video) :
    ∀ (n : Nat) (store : List String), v.link ∈ store →
      persistLoopF fails store (List.replicate n v) = (store, []) := by
  intro n
  induction n with
  | zero => intro store _; rfl
  | succ m ih =>
    intro store hmem
    rw [List.replicate_succ, persistLoopF, if_pos hmem]
    exact ih store hmem

theorem persistLoopF_nodup (fails : String → Bool) :
    ∀ (videos : List Video) (store : List String), store.Nodup →
      ((persistLoopF fails store videos).1).Nodup := by
  intro videos
  induction videos with
  | nil => intro store h; exact h
  | cons v vs ih =>
    intro store h
    rw [persistLoopF]
    by_cases hm : v.link ∈ store
    · rw [if_pos hm]; exact ih store h
    · rw [if_neg hm]
      by_cases hf : fails v.link
      · rw [if_pos hf]; exact ih store h
      · rw [if_neg hf]
        have h' : (store ++ [v.link]).Nodup := by
          simp [List.nodup_append, h, hm]
        exact ih (store ++ [v.link]) h'

/-- C4.  Persistence de-dup idempotence and link uniqueness: a candidate
whose link already exists in the store is skipped and leaves the store
unchanged however many times it appears in the batch, and a poll cycle
keeps the store's link list duplicate-free. -/
theorem c4_persistence (fails : String → Bool) (store : List String)
    (videos : List Video) (v : Video) (n : Nat)
    (hst : store.Nodup) (hmem : v.link ∈ store) :
    persistLoopF fails store (List.replicate n v) = (store, []) ∧
      ((persistLoopF fails store videos).1).Nodup :=
  ⟨persistLoopF_mem_replicate fails v n store hmem, persistLoopF_nodup fails videos store hst⟩

/-- Witness for C4: store holding link "l", a candidate with that link
repeated 3 times is skipped without change; a batch repeating a fresh
link twice still leaves the store duplicate-free. -/
theorem c4_persistence_witness :
    ((["l"] : List String).Nodup ∧
        Video.link ⟨"y", "t", "l", "s", 0⟩ ∈ (["l"] : List String)) ∧
      persistLoopF (fun _ => false) ["l"] (List.replicate 3 ⟨"y", "t", "l", "s", 0⟩) =
        (["l"], []) ∧
      ((persistLoopF (fun _ => false) ["l"]
        [⟨"z", "t2", "l2", "s", 1⟩, ⟨"z", "t2", "l2", "s", 1⟩]).1).Nodup :=
  ⟨⟨by decide, by decide⟩,
    c4_persistence (fun _ => false) ["l"]
      [⟨"z", "t2", "l2", "s", 1⟩, ⟨"z", "t2", "l2", "s", 1⟩]
      ⟨"y", "t", "l", "s", 0⟩ 3 (by decide) (by decide)⟩

theorem persistLoopF_cons (fails : String → Bool) (store : List String)
    (v : Video) (vs : List Video) :
    persistLoopF fails store (v :: vs) =
      if v.link ∈ store then persistLoopF fails store vs
      else if fails v.link then persistLoopF fails store vs
      else ((persistLoopF fails (store ++ [v.link]) vs).1,
        v :: (persistLoopF fails (store ++ [v.link]) vs).2) :=
  rfl

theorem persistLoopF_filter_fails (fails : String → Bool) :
    ∀ (videos : List Video) (store : List String),
      persistLoopF fails store videos =
        persistLoopF (fun _ => false) store (videos.filter (fun v => !(fails v.link))) := by
  intro videos
  induction videos with
  | nil => intro store; rfl
  | cons v vs ih =>
    intro store
    rw [List.filter_cons]
    by_cases hf : fails v.link
    · have hcond : (!(fails v.link)) = false := by rw [hf]; rfl
      rw [hcond, if_neg (by simp)]
      rw [persistLoopF_cons]
      by_cases hm : v.link ∈ store
      · rw [if_pos hm]; exact ih store
      · rw [if_neg hm, if_pos hf]; exact ih store
    · have hf' : fails v.link = false := Bool.eq_false_iff.mpr hf
      have hcond : (!(fails v.link)) = true := by rw [hf']; rfl
      rw [hcond, if_pos rfl]
      rw [persistLoopF_cons,
        persistLoopF_cons (fun _ => false) store v (vs.filter (fun w => !(fails w.link)))]
      by_cases hm : v.link ∈ store
      · rw [if_pos hm, if_pos hm]; exact ih store
      · rw [if_neg hm, if_neg hm, if_neg (by simp [hf']), if_neg (by simp)]
        rw [ih (store ++ [v.link])]

theorem persistLoopF_store_append (fails : String → Bool) :
    ∀ (videos : List Video) (store : List String),
      (persistLoopF fails store videos).1 =
        store ++ ((persistLoopF fails store videos).2).map (·.link) := by
  intro videos
  induction videos with
  | nil => intro store; simp [persistLoopF]
  | cons v vs ih =>
    intro store
    rw [persistLoopF]
    by_cases hm : v.link ∈ store
    · rw [if_pos hm]; exact ih store
    · rw [if_neg hm]
      by_cases hf : fails v.link
      · rw [if_pos hf]; exact ih store
      · rw [if_neg hf]
        have h := ih (store ++ [v.link])
        simp only [List.map_cons]
        rw [h]
        simp

/-- C7.  Per-item persistence atomicity: a failing insert affects only
its own item — the persist loop behaves exactly as if the failing items
were absent from the batch, the final store is the prior store plus the
links of the successfully persisted items in order (earlier successes
survive later failures, the loop continues), and the watermark update
is computed from the fetched batch, so it is unchanged by persistence
failures. -/
theorem c7_per_item_persistence (firstRun : Bool) (fails : String → Bool)
    (store : List String) (wms : List (String × WmRecord))
    (fetched : List (Except Unit (List Video))) (videos : List Video) :
    (runYtCycle firstRun fails store wms fetched).wms =
        (runYtCycle firstRun (fun _ => false) store wms fetched).wms ∧
      persistLoopF fails store videos =
        persistLoopF (fun _ => false) store (videos.filter (fun v => !(fails v.link))) ∧
      (persistLoopF fails store videos).1 =
        store ++ ((persistLoopF fails store videos).2).map (·.link) :=
  ⟨rfl, persistLoopF_filter_fails fails videos store,
    persistLoopF_store_append fails videos store⟩

/-! ## The Yemen (region-filtered) pipeline
(backend/main.py 483-500, 1024-1068, 1201-1319)

`fetch_all_yemen_youtube_channels` drops every fetched video whose title
fails `is_yemen_related` BEFORE the combined list is built; the feed
loop then builds `videos_by_channel` — and hence the watermark updates —
from that already-filtered list. -/

/-- The Yemen keyword list (`YEMEN_KEYWORDS`). -/
def YEMEN_KEYWORDS : List String :=
  ["اليمن", "يمني", "يمنية", "اليمني", "اليمنية", "اليمنيين",
   "المجلس الانتقالي", "الانتقالي", "المجلس الرئاسي",
   "درع الوطن", "العمالقة", "الحزام الأمني",
   "عدن", "صنعاء", "تعز", "مأرب", "الحديدة", "شبوة", "حضرموت", "أبين", "لحج", "الضالع",
   "الحوثي", "الحوثيين", "أنصار الله",
   "التحالف العربي", "عاصفة الحزم",
   "الشرعية", "هادي", "العليمي"]

/-- Character-list version of `List.isPrefixOf`. -/
def isPrefixLC : List Char → List Char → Bool
  | [], _ => true
  | _ :: _, [] => false
  | a :: as, b :: bs => decide (a = b) && isPrefixLC as bs

/-- The needle occurs contiguously somewhere in the haystack. -/
def isInfixLC (needle : List Char) : List Char → Bool
  | [] => needle.isEmpty
  | c :: cs => isPrefixLC needle (c :: cs) || isInfixLC needle cs

/-- Python's substring test `needle in hay`, over the strings' character
lists. -/
def pyContains (hay needle : String) : Bool :=
  isInfixLC needle.data hay.data

/-- `is_yemen_related(title)`: some keyword occurs in the title, or in
its lower-cased form (`keyword in title or keyword.lower() in
title_lower`); lower-casing is done character by character. -/
def is_yemen_related (title : String) : Bool :=
  YEMEN_KEYWORDS.any (fun k =>
    pyContains title k ||
      isInfixLC (k.data.map Char.toLower) (title.data.map Char.toLower))

/-- The per-fetch filter of `fetch_all_yemen_youtube_channels`: only
keyword-matching videos survive into the combined list. -/
def yemenFilter (videos : List Video) : List Video :=
  videos.filter (fun v => is_yemen_related v.title)

/-- One cycle of `fetch_yemen_youtube_feeds`: identical to the world
cycle except that every source's result is keyword-filtered before the
combine — so grouping, persistence AND the watermark updates all see
only the keyword-matching videos. -/
def runYemenCycle (firstRun : Bool) (fails : String → Bool) (store : List String)
    (wms : List (String × WmRecord)) (fetched : List (Except Unit (List Video))) :
    YtCycleResult :=
  runYtCycle firstRun fails store wms (fetched.map (Except.map yemenFilter))

/-- C5.  A Yemen-category poll whose source "ch1" fetched a
keyword-matching video (id `m0`, title containing `عدن`) and a
non-matching one (id `g0`, title "Global markets rally"): after the
cycle the source's watermark id-list is `["m0"]` only — the non-matching
candidate did NOT advance the watermark, although the code's own
comments say tracking must cover "ALL fetched videos, not just
Yemen-related".  (Only the matching video is persisted, as claimed.) -/
theorem c5_watermark_not_advanced :
    is_yemen_related "Global markets rally" = false ∧
      is_yemen_related "عاجل من عدن اليوم" = true ∧
      (runYemenCycle false (fun _ => false) [] []
        [Except.ok [⟨"m0", "عاجل من عدن اليوم", "lm", "ch1", 6⟩,
          ⟨"g0", "Global markets rally", "lg", "ch1", 5⟩]]).wms =
        [("ch1", ⟨["m0"], 6⟩)] ∧
      (runYemenCycle false (fun _ => false) [] []
        [Except.ok [⟨"m0", "عاجل من عدن اليوم", "lm", "ch1", 6⟩,
          ⟨"g0", "Global markets rally", "lg", "ch1", 5⟩]]).store = ["lm"] :=
  ⟨rfl, rfl, rfl, rfl⟩

/-! ## Event timeline: clustering write side
(backend/main.py 240-309 `process_event_timeline`) and read side
(backend/main.py 1372-1459 `get_event_timeline`). -/

/-- A stored news row (the fields the timeline code reads). -/
structure StoredItem where
  id : Nat
  title : String
  link : String
  published : Nat
  source : String
deriving DecidableEq, Repr

/-- An `event_threads` row. -/
structure ThreadRow where
  news_id : Nat
  related_news_id : Nat
  news_type : String
  related_news_type : Option String
  thread_title : String
  similarity_reason : String
deriving DecidableEq, Repr

/-- The database state the timeline code touches: the three per-category
item tables and the `event_threads` table. -/
structure TimelineDB where
  worldItems : List StoredItem
  yemenItems : List StoredItem
  newspaperItems : List StoredItem
  threads : List ThreadRow
deriving DecidableEq, Repr

/-- The parsed reply of the external reasoning service
(`find_related_news_with_ai`), supplied as an oracle. -/
structure AIResult where
  thread_title : String
  related_ids : List String
  reason : String
deriving DecidableEq, Repr

/-- Split a character list at the first occurrence of `sep`
(Python's `split(sep, 1)`); `none` when `sep` does not occur. -/
def splitFirstLC (sep : Char) : List Char → Option (List Char × List Char)
  | [] => none
  | c :: cs =>
    if c = sep then some ([], cs)
    else (splitFirstLC sep cs).map (fun p => (c :: p.1, p.2))

/-- Parse a (non-negative decimal) numeral, as `int()` accepts the ids
the service returns; anything else raises, caught as `none`. -/
def natOfDigitsAux : List Char → Nat → Option Nat
  | [], acc => some acc
  | c :: cs, acc =>
    if c.isDigit then natOfDigitsAux cs (acc * 10 + (c.toNat - 48)) else none

def natOfDigits (cs : List Char) : Option Nat :=
  if cs.isEmpty then none else natOfDigitsAux cs 0

/-- Parse one id of the service's reply: `"type:id"` yields that type,
a bare id falls back to the current item's type; an unparseable id is
skipped (the `except ... continue`). -/
def parseRelatedId (nt : String) (s : String) : Option (String × Nat) :=
  match splitFirstLC ':' s.data with
  | some (t, r) => (natOfDigits r).map (fun n => (String.mk t, n))
  | none => (natOfDigits s.data).map (fun n => (nt, n))

/-- The duplicate-relationship check before inserting a thread row. -/
def threadExists (threads : List ThreadRow) (nid rid : Nat) (nt rt : String) : Bool :=
  threads.any (fun t =>
    decide (t.news_id = nid ∧ t.related_news_id = rid ∧
      t.news_type = nt ∧ t.related_news_type = some rt))

/-- The `for related_id_str in result["related_ids"]` loop: parse each
id, skip duplicates and parse failures, append a thread row otherwise. -/
def addThreadRows (ai : AIResult) (nt : String) (nid : Nat)
    (threads : List ThreadRow) : List ThreadRow :=
  ai.related_ids.foldl
    (fun ths s =>
      match parseRelatedId nt s with
      | none => ths
      | some (rt, rid) =>
        if threadExists ths nid rid nt rt then ths
        else ths ++ [⟨nid, rid, nt, some rt, ai.thread_title, ai.reason⟩])
    threads

/-- `process_event_timeline(db, news_id, news_title, news_summary,
news_type)`: returns the new database state and the number of calls made
to the external reasoning service.  For `news_type == 'yemen'` it
returns immediately; otherwise it gathers the most recent 150 world and
newspaper rows (excluding the item itself), returns if that pool is
empty, and else makes one service call and stores the returned
relationships (when the reply names a thread title and related ids). -/
def process_event_timeline (ai : AIResult) (db : TimelineDB) (nid : Nat)
    (title summary : String) (nt : String) : TimelineDB × Nat :=
  if nt = "yemen" then (db, 0)
  else
    let world := (sortByDesc (·.published) db.worldItems).take 150
    let npaper := (sortByDesc (·.published) db.newspaperItems).take 150
    let combined :=
      (world.filter (fun n => !(decide (nt = "world") && decide (n.id = nid)))).map
          (fun n => ("world", n.id))
        ++ (npaper.filter (fun n => !(decide (nt = "newspaper") && decide (n.id = nid)))).map
          (fun n => ("newspaper", n.id))
    if combined.isEmpty then (db, 0)
    else if ai.thread_title ≠ "" ∧ ai.related_ids ≠ [] then
      ({ db with threads := addThreadRows ai nt nid db.threads }, 1)
    else (db, 1)

/-- C10.  The event-timeline clustering step is a no-op for the Yemen
category: invoked with `news_type = 'yemen'` it returns at once with the
database unchanged and zero calls to the reasoning service — no thread
row is ever created with a Yemen item as its primary item. -/
theorem c10_yemen_noop (ai : AIResult) (db : TimelineDB) (nid : Nat)
    (title summary : String) :
    process_event_timeline ai db nid title summary "yemen" = (db, 0) :=
  rfl

/-! ### Timeline read endpoint `get_event_timeline` -/

/-- Stable insertion (ascending by `key`). -/
def insertByAsc {α : Type} (key : α → Nat) (x : α) : List α → List α
  | [] => [x]
  | y :: ys => if key x < key y then x :: y :: ys else y :: insertByAsc key x ys

/-- Stable sort, least key first (`related_news.sort(...)`). -/
def sortByAsc {α : Type} (key : α → Nat) (l : List α) : List α :=
  l.foldl (fun acc v => insertByAsc key v acc) []

/-- Forward lookup: rows whose primary item is the requested one. -/
def forwardThreads (nt : String) (nid : Nat) (threads : List ThreadRow) : List ThreadRow :=
  threads.filter (fun t => decide (t.news_id = nid ∧ t.news_type = nt))

/-- Reverse lookup: rows citing the requested item as related (legacy
rows with a NULL related type match on the primary type). -/
def reverseThreads (nt : String) (nid : Nat) (threads : List ThreadRow) : List ThreadRow :=
  threads.filter (fun t =>
    decide (t.related_news_id = nid ∧
      (t.related_news_type = some nt ∨
        (t.related_news_type = none ∧ t.news_type = nt))))

/-- The `related_items` set of `(id, type)` pairs (modelled as a list
de-duplicated in insertion order; only membership matters, the output is
re-sorted). -/
def relatedItems (nt : String) (nid : Nat) (threads : List ThreadRow) : List (Nat × String) :=
  dedupKeepFirst
    ((forwardThreads nt nid threads).map
        (fun t => (t.related_news_id, t.related_news_type.getD t.news_type))
      ++ (reverseThreads nt nid threads).map (fun t => (t.news_id, t.news_type)))

/-- Fetch one referenced row from its category's table. -/
def lookupItem (db : TimelineDB) (rtype : String) (rid : Nat) : Option StoredItem :=
  if rtype = "world" then db.worldItems.find? (fun n => decide (n.id = rid))
  else if rtype = "yemen" then db.yemenItems.find? (fun n => decide (n.id = rid))
  else db.newspaperItems.find? (fun n => decide (n.id = rid))

/-- One entry of the endpoint's `related_news` answer. -/
structure TimelineOut where
  id : Nat
  title : String
  published : Nat
  news_type : String
deriving DecidableEq, Repr

def mkTimelineOut (rtype : String) (it : StoredItem) : TimelineOut :=
  ⟨it.id, it.title, it.published, rtype⟩

/-- `get_event_timeline(news_type, news_id)`: gather the related rows
through the thread table (forward and reverse), fetch each existing row
from its table, and return them sorted by publish time ascending.  No
similarity computation of any kind is performed. -/
def get_event_timeline (nt : String) (nid : Nat) (db : TimelineDB) : List TimelineOut :=
  let rel := relatedItems nt nid db.threads
  let items := rel.filterMap (fun p => (lookupItem db p.2 p.1).map (mkTimelineOut p.2))
  sortByAsc (·.published) items

theorem mem_insertByAsc {α : Type} (key : α → Nat) (x a : α) :
    ∀ l : List α, a ∈ insertByAsc key x l ↔ a = x ∨ a ∈ l := by
  intro l
  induction l with
  | nil => simp [insertByAsc]
  | cons y ys ih =>
    rw [insertByAsc]
    by_cases h : key x < key y
    · rw [if_pos h]; simp
    · rw [if_neg h]
      simp only [List.mem_cons, ih]
      tauto

theorem mem_sortByAsc_aux {α : Type} (key : α → Nat) (a : α) :
    ∀ (l acc : List α),
      (a ∈ l.foldl (fun acc v => insertByAsc key v acc) acc ↔ a ∈ l ∨ a ∈ acc) := by
  intro l
  induction l with
  | nil => intro acc; simp
  | cons x xs ih =>
    intro acc
    rw [List.foldl_cons, ih, mem_insertByAsc]
    simp only [List.mem_cons]
    tauto

theorem mem_sortByAsc {α : Type} (key : α → Nat) (a : α) (l : List α) :
    a ∈ sortByAsc key l ↔ a ∈ l := by
  rw [sortByAsc, mem_sortByAsc_aux]
  simp

/-- C9 (amended).  The timeline endpoint applies no plausibility filter:
every thread-referenced item that exists in storage appears in the
returned timeline, whatever its lexical similarity to the rest of the
thread. -/
theorem c9_amended (db : TimelineDB) (nt : String) (nid : Nat)
    (p : Nat × String) (it : StoredItem)
    (hp : p ∈ relatedItems nt nid db.threads)
    (hit : lookupItem db p.2 p.1 = some it) :
    mkTimelineOut p.2 it ∈ get_event_timeline nt nid db := by
  unfold get_event_timeline
  rw [mem_sortByAsc]
  exact List.mem_filterMap.mpr ⟨p, hp, by rw [hit]; rfl⟩

/-- A concrete timeline database: item 1 (world) is threaded with items
2, 3, 4 and 5; item 5's title shares no token with any other title in
the thread. -/
def exTimelineDB : TimelineDB :=
  { worldItems :=
      [⟨1, "aa bb", "w1", 100, "s1"⟩,
       ⟨2, "aa cc", "w2", 200, "s1"⟩,
       ⟨3, "bb cc", "w3", 300, "s2"⟩,
       ⟨4, "aa bb cc", "w4", 400, "s2"⟩,
       ⟨5, "qq rr", "w5", 500, "s3"⟩]
    yemenItems := []
    newspaperItems := []
    threads :=
      [⟨1, 2, "world", some "world", "T", "r"⟩,
       ⟨1, 3, "world", some "world", "T", "r"⟩,
       ⟨1, 4, "world", some "world", "T", "r"⟩,
       ⟨1, 5, "world", some "world", "T", "r"⟩] }

/-- Witness for C9 (amended) at `exTimelineDB`: the zero-overlap item 5
is referenced, stored, and returned. -/
theorem c9_amended_witness :
    (((5 : Nat), "world") ∈ relatedItems "world" 1 exTimelineDB.threads ∧
        lookupItem exTimelineDB "world" 5 = some ⟨5, "qq rr", "w5", 500, "s3"⟩) ∧
      mkTimelineOut "world" ⟨5, "qq rr", "w5", 500, "s3"⟩ ∈
        get_event_timeline "world" 1 exTimelineDB :=
  ⟨⟨by decide, by decide⟩,
    c9_amended exTimelineDB "world" 1 (5, "world") ⟨5, "qq rr", "w5", 500, "s3"⟩
      (by decide) (by decide)⟩

/-- Split a character list into space-separated words, accumulating the
current word in reverse. -/
def splitWordsAux : List Char → List Char → List String
  | [], cur => if cur.isEmpty then [] else [String.mk cur.reverse]
  | c :: cs, cur =>
    if c = ' ' then
      (if cur.isEmpty then [] else [String.mk cur.reverse]) ++ splitWordsAux cs []
    else splitWordsAux cs (c :: cur)

/-- Modelled from the spec (§4.5): the stop-word-stripped token set of a
title — the timeline plausibility filter the spec describes does not
exist anywhere in the source; this definition follows the spec's words
so the claimed filter criterion can be stated. -/
def specTokens (stop : List String) (s : String) : List String :=
  dedupKeepFirst ((splitWordsAux s.data []).filter (fun w => !(stop.contains w)))

/-- Modelled from the spec (§4.5, §9): pairwise token Jaccard similarity
in percent (thresholds 15 / 10). -/
def specJaccard100 (stop : List String) (a b : String) : Nat :=
  let ta := specTokens stop a
  let tb := specTokens stop b
  let inter := ta.filter (fun w => tb.contains w)
  let uni := dedupKeepFirst (ta ++ tb)
  if uni.length = 0 then 0 else 100 * inter.length / uni.length

/-- C9 (counterexample).  In `exTimelineDB`, item 5 ("qq rr") has zero
Jaccard similarity (for any stop-word list: its tokens are disjoint from
every other title) — so its best and average pairwise similarity, 0,
fall below any positive threshold — and dropping it from the 5-item
thread would leave 4 ≥ 5/2 items; yet the endpoint returns it: the
claimed filter does not exist in the code. -/
theorem c9_counterexample :
    (["aa bb", "aa cc", "bb cc", "aa bb cc"].all
        (fun t => specJaccard100 [] "qq rr" t == 0)) = true ∧
      2 * 4 ≥ 5 ∧
      (⟨5, "qq rr", 500, "world"⟩ : TimelineOut) ∈
        get_event_timeline "world" 1 exTimelineDB := by
  refine ⟨rfl, by decide, by decide⟩

end WorldNews
